import Mathlib

/-!
Shallow embedding of the Foreman Ansible callback plugin
(`plugins/callback/foreman.py`) and proofs about its report aggregation
and publishing behaviour.

Python dictionaries are modelled as insertion-ordered association lists
(`List (String × α)`) with unique-key update semantics; Python result
values are modelled by a JSON-like inductive type extended with a
constructor for arbitrary Python objects that `json.dumps` cannot
serialize.  Network requests are modelled by an outcome function passed
to the publishing operations: `none` means a 2xx response, `some e`
means a `requests.exceptions.RequestException` with message `e`.
An exception that is not caught (for example `TypeError` raised by
`json.dumps`) is modelled with `Except` / an `escaped` field.
-/

set_option autoImplicit false

namespace Foreman

/-- A JSON-serializable Python value, plus `pyObject`, standing for any
Python object that `json.dumps` rejects (it raises `TypeError`). -/
inductive JsonValue where
  | null
  | bool (b : Bool)
  | num (n : Int)
  | str (s : String)
  | arr (xs : List JsonValue)
  | obj (fields : List (String × JsonValue))
  | pyObject (tag : String)

/-- A Python dict with string keys, as stored in result values. -/
abbrev Obj := List (String × JsonValue)

/-- Python truthiness of a value, as used by `if msg['changed']:`. -/
def truthy : JsonValue → Bool
  | JsonValue.null => false
  | JsonValue.bool b => b
  | JsonValue.num n => n != 0
  | JsonValue.str s => s ≠ ""
  | JsonValue.arr xs => ¬xs.isEmpty
  | JsonValue.obj fs => ¬fs.isEmpty
  | JsonValue.pyObject _ => true

/-- Dict lookup, `d[k]` / `k in d` (keys are unique, first match). -/
def dictGet {α : Type} : List (String × α) → String → Option α
  | [], _ => none
  | (k', v') :: rest, k => if k' = k then some v' else dictGet rest k

/-- Dict assignment `d[k] = v`: overwrite in place if the key exists
(insertion order preserved), otherwise append at the end. -/
def dictSet {α : Type} : List (String × α) → String → α → List (String × α)
  | [], k, v => [(k, v)]
  | (k', v') :: rest, k, v =>
      if k' = k then (k, v) :: rest else (k', v') :: dictSet rest k v

/-- Python `d.update(other)`: key-wise overwrite, in `other`'s order. -/
def dictUpdate (d other : Obj) : Obj :=
  other.foldl (fun acc kv => dictSet acc kv.1 kv.2) d

mutual

/-- Python `json.dumps`: renders a value, or raises `TypeError`
(modelled as `Except.error`) on a non-serializable object. -/
def dumps : JsonValue → Except String String
  | JsonValue.null => Except.ok "null"
  | JsonValue.bool b => Except.ok (if b then "true" else "false")
  | JsonValue.num n => Except.ok (toString n)
  | JsonValue.str s => Except.ok ("\"" ++ s ++ "\"")
  | JsonValue.arr xs =>
      match dumpsArr xs with
      | Except.ok parts => Except.ok ("[" ++ String.intercalate ", " parts ++ "]")
      | Except.error e => Except.error e
  | JsonValue.obj fs =>
      match dumpsObj fs with
      | Except.ok parts => Except.ok ("\x7b" ++ String.intercalate ", " parts ++ "\x7d")
      | Except.error e => Except.error e
  | JsonValue.pyObject tag =>
      Except.error ("Object of type " ++ tag ++ " is not JSON serializable")

/-- Serialize the elements of a JSON array. -/
def dumpsArr : List JsonValue → Except String (List String)
  | [] => Except.ok []
  | x :: xs =>
      match dumps x, dumpsArr xs with
      | Except.ok s, Except.ok rest => Except.ok (s :: rest)
      | Except.error e, _ => Except.error e
      | _, Except.error e => Except.error e

/-- Serialize the fields of a JSON object. -/
def dumpsObj : List (String × JsonValue) → Except String (List String)
  | [] => Except.ok []
  | (k, v) :: fs =>
      match dumps v, dumpsObj fs with
      | Except.ok s, Except.ok rest => Except.ok (("\"" ++ k ++ "\": " ++ s) :: rest)
      | Except.error e, _ => Except.error e
      | _, Except.error e => Except.error e

end

/-- Does an `Except` computation succeed? -/
def exceptOk {ε α : Type} : Except ε α → Bool
  | Except.ok _ => true
  | Except.error _ => false

/-- The level branch of `build_log`: `'failed' in msg` (key presence,
no truthiness test), `elif 'changed' in msg and msg['changed']` (key
presence and truthiness), else `info`. -/
def classifyLevel (msg : Obj) : String :=
  if (dictGet msg "failed").isSome then "err"
  else
    match dictGet msg "changed" with
    | some c => if truthy c then "notice" else "info"
    | none => "info"

/-- One entry yielded by `build_log`, keeping the fields that carry
data: `log.sources.source`, `log.messages.message`, `log.level`. -/
structure LogEntry where
  source : String
  message : String
  level : String

/-- `build_log(data)`: one log entry per buffered `(source, msg)` pair,
in order; `json.dumps(msg)` may raise, which aborts the enclosing
`list(...)` evaluation. -/
def buildLog : List (String × Obj) → Except String (List LogEntry)
  | [] => Except.ok []
  | (source, msg) :: rest =>
      match dumps (JsonValue.obj msg), buildLog rest with
      | Except.ok s, Except.ok entries =>
          Except.ok ({ source := source, message := s, level := classifyLevel msg } :: entries)
      | Except.error e, _ => Except.error e
      | _, Except.error e => Except.error e

/-- The mutable state of `CallbackModule`: `self.foreman_url`,
`self.items` (host → buffered `(task name, result value)` pairs,
a `defaultdict(list)`), `self.facts` (host → fact dict, a
`defaultdict(dict)`), and the `self.disabled` flag set by
`_disable_plugin`.  `start_time` only feeds the elapsed-seconds
metric, which is passed in explicitly at publish time. -/
structure RunState where
  foreman_url : String
  items : List (String × List (String × Obj))
  facts : List (String × Obj)
  disabled : Bool

/-- The state right after `__init__`: empty buffers, not disabled. -/
def initState : RunState :=
  { foreman_url := "", items := [], facts := [], disabled := false }

/-- `self.items[host]` under `defaultdict(list)` semantics. -/
def itemsOf (st : RunState) (host : String) : List (String × Obj) :=
  (dictGet st.items host).getD []

/-- `self.facts[host]` under `defaultdict(dict)` semantics. -/
def factsOf (st : RunState) (host : String) : Obj :=
  (dictGet st.facts host).getD []

/-- `append_result(result)`: append `(task name, value)` to
`self.items[host]`; if `'ansible_facts' in value`, merge them into
`self.facts[host]` with `dict.update`. -/
def appendResult (st : RunState) (name host : String) (value : Obj) : RunState :=
  let st' := { st with items := dictSet st.items host (itemsOf st host ++ [(name, value)]) }
  match dictGet value "ansible_facts" with
  | some (JsonValue.obj af) =>
      { st' with facts := dictSet st'.facts host (dictUpdate (factsOf st' host) af) }
  | _ => st'

/-- One runner event delivered to the callback (`v2_runner_on_ok`,
`_failed`, `_unreachable`, `_async_ok`, `_async_failed` all funnel the
result into `append_result`). -/
structure Event where
  task : String
  host : String
  value : Obj

/-- Deliver a sequence of runner events to `append_result`. -/
def ingest (st : RunState) (events : List Event) : RunState :=
  events.foldl (fun s e => appendResult s e.task e.host e.value) st

/-- The four counters read from `stats.summarize(host)`. -/
structure Summary where
  changed : Nat
  failures : Nat
  unreachable : Nat
  skipped : Nat

/-- The end-of-run `stats` object: its `processed` hosts (in iteration
order) and the per-host `summarize` counters. -/
structure Stats where
  processed : List String
  summarize : String → Summary

/-- The `status` block of a config report. -/
structure StatusBlock where
  applied : Nat
  failed : Nat
  skipped : Nat
deriving DecidableEq

/-- The `config_report` document POSTed for one host. -/
structure Report where
  host : String
  reported_at : String
  totalTime : Int
  status : StatusBlock
  logs : List LogEntry
  reporter : String

/-- A warning emitted through `self._display.warning` for a failed
POST; it carries the host and the configured base URL that the format
string interpolates. -/
structure Warning where
  url : String
  host : String
  err : String

/-- The text of a failed-report warning, from the source format string
`'Sending report to Foreman at {url} failed for {host}: {err}'`. -/
def renderReportWarning (w : Warning) : String :=
  "Sending report to Foreman at " ++ w.url ++ " failed for " ++ w.host ++ ": " ++ w.err

/-- The text of a failed-facts warning, from the source format string
`'Sending facts to Foreman at {url} failed for {host}: {err}'`. -/
def renderFactsWarning (w : Warning) : String :=
  "Sending facts to Foreman at " ++ w.url ++ " failed for " ++ w.host ++ ": " ++ w.err

/-- Build one host's `config_report` document, as assembled inline in
`send_reports`; forcing `list(build_log(self.items[host]))` may raise,
which happens before the `try` block around the POST. -/
def buildReportDoc (st : RunState) (host : String) (total : Summary)
    (now : String) (elapsed : Int) : Except String Report :=
  match buildLog (itemsOf st host) with
  | Except.error e => Except.error e
  | Except.ok logs =>
      Except.ok
        { host := host
          reported_at := now
          totalTime := elapsed
          status :=
            { applied := total.changed
              failed := total.failures + total.unreachable
              skipped := total.skipped }
          logs := logs
          reporter := "ansible" }

/-- Outcome of `send_reports`: the final state, the reports actually
POSTed in order, the warnings for caught `RequestException`s, and the
message of an exception that escaped the loop (`none` if it ran to
completion). -/
structure ReportsResult where
  state : RunState
  posted : List Report
  warnings : List Warning
  escaped : Option String

/-- The `for host in stats.processed.keys()` loop of `send_reports`.
Per host: build the report (a serialization `TypeError` here escapes —
it is raised outside the `try`), POST it (a `RequestException` is
caught and warned about), then unconditionally `self.items[host] = []`. -/
def sendReportsAux (baseUrl : String) (summarize : String → Summary)
    (post : String → Option String) (now : String) (elapsed : Int) :
    RunState → List String → ReportsResult
  | st, [] => { state := st, posted := [], warnings := [], escaped := none }
  | st, host :: rest =>
      match buildReportDoc st host (summarize host) now elapsed with
      | Except.error e => { state := st, posted := [], warnings := [], escaped := some e }
      | Except.ok report =>
          let warns : List Warning :=
            match post host with
            | none => []
            | some e => [{ url := baseUrl, host := host, err := e }]
          let st' := { st with items := dictSet st.items host [] }
          let res := sendReportsAux baseUrl summarize post now elapsed st' rest
          { state := res.state
            posted := report :: res.posted
            warnings := warns ++ res.warnings
            escaped := res.escaped }

/-- `send_reports(stats)`: iterate over `stats.processed`, POSTing to
`foreman_url + '/api/v2/config_reports'`. -/
def sendReports (st : RunState) (stats : Stats) (post : String → Option String)
    (now : String) (elapsed : Int) : ReportsResult :=
  sendReportsAux st.foreman_url stats.summarize post now elapsed st stats.processed

/-- The facts document for one host: `{"name": host, "facts":
{"ansible_facts": self.facts[host], "_type": "ansible",
"_timestamp": get_now()}}`. -/
def buildFactsDoc (host : String) (hostFacts : Obj) (now : String) : JsonValue :=
  JsonValue.obj
    [("name", JsonValue.str host),
     ("facts", JsonValue.obj
       [("ansible_facts", JsonValue.obj hostFacts),
        ("_type", JsonValue.str "ansible"),
        ("_timestamp", JsonValue.str now)])]

/-- Outcome of `send_facts`: the documents POSTed (with their host) in
order and the warnings for caught `RequestException`s. -/
structure FactsResult where
  posted : List (String × JsonValue)
  warnings : List Warning

/-- The `for host, facts in self.facts.items()` loop of `send_facts`:
the loop variable is rebound to the request document, `self.facts` is
never assigned. -/
def sendFactsAux (baseUrl : String) (now : String) (post : String → Option String) :
    List (String × Obj) → FactsResult
  | [] => { posted := [], warnings := [] }
  | (host, hostFacts) :: rest =>
      let doc := buildFactsDoc host hostFacts now
      let warns : List Warning :=
        match post host with
        | none => []
        | some e => [{ url := baseUrl, host := host, err := e }]
      let res := sendFactsAux baseUrl now post rest
      { posted := (host, doc) :: res.posted, warnings := warns ++ res.warnings }

/-- `send_facts()`: POST one facts document per host in `self.facts` to
`foreman_url + '/api/v2/hosts/facts'`; the method never assigns to
`self.facts` or `self.items`, so the state is returned unchanged. -/
def sendFacts (st : RunState) (now : String) (post : String → Option String) :
    RunState × FactsResult :=
  (st, sendFactsAux st.foreman_url now post st.facts)

/-- `self._disable_plugin(msg)`: sets `self.disabled = True` (and warns);
nothing in the plugin ever resets the flag. -/
def disablePlugin (st : RunState) : RunState :=
  { st with disabled := true }

/-- The configuration facts `set_options` reads: the option values, the
availability and version of `requests`, and existence of the
certificate and key files. -/
structure SetOptionsInput where
  disable_callback : Bool
  url : String
  hasRequests : Bool
  requestsVersion : List Nat
  certExists : Bool
  keyExists : Bool

/-- Python tuple comparison `<` on version tuples. -/
def versionLt : List Nat → List Nat → Bool
  | _, [] => false
  | [], _ :: _ => true
  | a :: as, b :: bs => if a < b then true else if b < a then false else versionLt as bs

/-- `set_options`: disable on the `disable_callback` option, on a
missing or too-old `requests` module, and — for an `https://` URL — on
a missing client certificate or key file; record `self.foreman_url`. -/
def setOptions (st : RunState) (inp : SetOptionsInput) : RunState :=
  let st := if inp.disable_callback then disablePlugin st else st
  let st := { st with foreman_url := inp.url }
  let st :=
    if inp.hasRequests then
      if versionLt inp.requestsVersion [2, 14] then disablePlugin st else st
    else disablePlugin st
  let st :=
    if inp.url.startsWith "https://" then
      let st := if inp.certExists then st else disablePlugin st
      if inp.keyExists then st else disablePlugin st
    else st
  st

/-- All externally visible effects of the end-of-run publish. -/
structure RunEffects where
  factsPosted : List (String × JsonValue)
  reportsPosted : List Report
  factsWarnings : List Warning
  reportWarnings : List Warning
  escaped : Option String

/-- `v2_playbook_on_stats(stats)`: `send_facts()` then
`send_reports(stats)`. -/
def v2_playbook_on_stats (st : RunState) (stats : Stats)
    (postFacts postReports : String → Option String)
    (now : String) (elapsed : Int) : RunState × RunEffects :=
  let f := sendFacts st now postFacts
  let r := sendReports f.1 stats postReports now elapsed
  (r.state,
   { factsPosted := f.2.posted
     reportsPosted := r.posted
     factsWarnings := f.2.warnings
     reportWarnings := r.warnings
     escaped := r.escaped })

/-- Modelled from the spec: the host orchestrator's plugin dispatch —
which is not part of this repository's source — never invokes a hook of
a plugin whose `disabled` flag is set, so per spec §4.5 "once disabled
... all publish operations become no-ops".  This wraps the repository's
`v2_playbook_on_stats` with that externally enforced gate. -/
def dispatchEndOfRun (st : RunState) (stats : Stats)
    (postFacts postReports : String → Option String)
    (now : String) (elapsed : Int) : RunState × RunEffects :=
  if st.disabled then
    (st, { factsPosted := [], reportsPosted := [], factsWarnings := [],
           reportWarnings := [], escaped := none })
  else
    v2_playbook_on_stats st stats postFacts postReports now elapsed

/-! ### Dictionary lemmas -/

theorem dictGet_dictSet_self {α : Type} (d : List (String × α)) (k : String) (v : α) :
    dictGet (dictSet d k v) k = some v := by
  induction d with
  | nil => simp [dictGet, dictSet]
  | cons kv rest ih =>
      obtain ⟨k', v'⟩ := kv
      by_cases h : k' = k
      · subst h; simp [dictGet, dictSet]
      · simp [dictGet, dictSet, h, ih]

theorem dictGet_dictSet_ne {α : Type} (d : List (String × α)) (k k' : String) (v : α)
    (h : k' ≠ k) : dictGet (dictSet d k v) k' = dictGet d k' := by
  have h2 : ¬(k = k') := fun hk => h hk.symm
  induction d with
  | nil => simp [dictGet, dictSet, h2]
  | cons kv rest ih =>
      obtain ⟨k₀, v₀⟩ := kv
      by_cases h0 : k₀ = k
      · subst h0
        simp [dictGet, dictSet, h2]
      · simp only [dictSet, if_neg h0, dictGet]
        by_cases h1 : k₀ = k'
        · simp [h1]
        · simp [h1, ih]

/-! ### `append_result` lemmas -/

theorem itemsOf_appendResult_self (st : RunState) (name host : String) (value : Obj) :
    itemsOf (appendResult st name host value) host = itemsOf st host ++ [(name, value)] := by
  unfold appendResult
  split <;> simp [itemsOf, dictGet_dictSet_self]

theorem itemsOf_appendResult_ne (st : RunState) (name host host' : String) (value : Obj)
    (h : host' ≠ host) :
    itemsOf (appendResult st name host value) host' = itemsOf st host' := by
  unfold appendResult
  split <;> simp [itemsOf, dictGet_dictSet_ne _ _ _ _ h]

theorem appendResult_facts_of_no_facts (st : RunState) (name host : String) (value : Obj)
    (h : dictGet value "ansible_facts" = none) :
    (appendResult st name host value).facts = st.facts := by
  unfold appendResult
  rw [h]

theorem appendResult_facts_of_facts (st : RunState) (name host : String) (value : Obj)
    (af : Obj) (h : dictGet value "ansible_facts" = some (JsonValue.obj af)) :
    (appendResult st name host value).facts =
      dictSet st.facts host (dictUpdate (factsOf st host) af) := by
  unfold appendResult
  rw [h]
  rfl

theorem appendResult_disabled (st : RunState) (name host : String) (value : Obj) :
    (appendResult st name host value).disabled = st.disabled := by
  unfold appendResult
  split <;> rfl

/-! ### Ingestion lemmas -/

theorem itemsOf_ingest (events : List Event) : ∀ (st : RunState) (host : String),
    itemsOf (ingest st events) host =
      itemsOf st host ++
        ((events.filter fun e => e.host == host).map fun e => (e.task, e.value)) := by
  induction events with
  | nil => intro st host; simp [ingest]
  | cons e rest ih =>
      intro st host
      have hstep : ingest st (e :: rest) = ingest (appendResult st e.task e.host e.value) rest := rfl
      rw [hstep, ih]
      by_cases h : e.host = host
      · subst h
        simp [itemsOf_appendResult_self]
      · have hb : (e.host == host) = false := beq_eq_false_iff_ne.mpr h
        simp [itemsOf_appendResult_ne st e.task e.host host e.value (fun hh => h hh.symm), hb]

/-! ### `build_log` lemmas -/

theorem buildLog_ok_of_serializable : ∀ (data : List (String × Obj)),
    (∀ p ∈ data, exceptOk (dumps (JsonValue.obj p.2)) = true) →
    ∃ es, buildLog data = Except.ok es
      ∧ es.map LogEntry.source = data.map Prod.fst
      ∧ es.map LogEntry.level = data.map fun p => classifyLevel p.2 := by
  intro data
  induction data with
  | nil => intro _; exact ⟨[], rfl, rfl, rfl⟩
  | cons p rest ih =>
      intro hall
      obtain ⟨src, msg⟩ := p
      have h1 : exceptOk (dumps (JsonValue.obj msg)) = true := hall _ (List.mem_cons_self _ _)
      obtain ⟨es, he, hs, hl⟩ := ih fun q hq => hall q (List.mem_cons_of_mem _ hq)
      cases hd : dumps (JsonValue.obj msg) with
      | error e => rw [hd] at h1; simp [exceptOk] at h1
      | ok s =>
          exact ⟨{ source := src, message := s, level := classifyLevel msg } :: es,
                 by simp [buildLog, hd, he], by simp [hs], by simp [hl]⟩

/-! ### `send_reports` loop lemmas -/

theorem buildReportDoc_ok_inv (st : RunState) (host : String) (total : Summary)
    (now : String) (elapsed : Int) (r : Report)
    (h : buildReportDoc st host total now elapsed = Except.ok r) :
    r.host = host
    ∧ r.status = { applied := total.changed,
                   failed := total.failures + total.unreachable,
                   skipped := total.skipped }
    ∧ buildLog (itemsOf st host) = Except.ok r.logs := by
  unfold buildReportDoc at h
  cases hb : buildLog (itemsOf st host) with
  | error e => rw [hb] at h; cases h
  | ok logs =>
      rw [hb] at h
      injection h with h
      subst h
      exact ⟨rfl, rfl, rfl⟩

theorem sendReportsAux_state_frame (baseUrl : String) (summarize : String → Summary)
    (post : String → Option String) (now : String) (elapsed : Int) :
    ∀ (hosts : List String) (st : RunState),
      (sendReportsAux baseUrl summarize post now elapsed st hosts).state.facts = st.facts
      ∧ (sendReportsAux baseUrl summarize post now elapsed st hosts).state.disabled = st.disabled
      ∧ (sendReportsAux baseUrl summarize post now elapsed st hosts).state.foreman_url
          = st.foreman_url := by
  intro hosts
  induction hosts with
  | nil => intro st; exact ⟨rfl, rfl, rfl⟩
  | cons host rest ih =>
      intro st
      simp only [sendReportsAux]
      cases hb : buildReportDoc st host (summarize host) now elapsed with
      | error e => exact ⟨rfl, rfl, rfl⟩
      | ok r =>
          simpa using ih { st with items := dictSet st.items host [] }

theorem sendReportsAux_items_notmem (baseUrl : String) (summarize : String → Summary)
    (post : String → Option String) (now : String) (elapsed : Int) :
    ∀ (hosts : List String) (st : RunState) (h : String), h ∉ hosts →
      dictGet (sendReportsAux baseUrl summarize post now elapsed st hosts).state.items h
        = dictGet st.items h := by
  intro hosts
  induction hosts with
  | nil => intro st h _; rfl
  | cons host rest ih =>
      intro st h hmem
      have hne : h ≠ host := fun he => hmem (he ▸ List.mem_cons_self _ _)
      have hrest : h ∉ rest := fun hr => hmem (List.mem_cons_of_mem _ hr)
      simp only [sendReportsAux]
      cases hb : buildReportDoc st host (summarize host) now elapsed with
      | error e => rfl
      | ok r =>
          simpa [dictGet_dictSet_ne _ _ _ _ hne] using
            ih { st with items := dictSet st.items host [] } h hrest

theorem sendReportsAux_items_mono (baseUrl : String) (summarize : String → Summary)
    (post : String → Option String) (now : String) (elapsed : Int) :
    ∀ (hosts : List String) (st : RunState) (h : String),
      dictGet st.items h = some [] →
      dictGet (sendReportsAux baseUrl summarize post now elapsed st hosts).state.items h
        = some [] := by
  intro hosts
  induction hosts with
  | nil => intro st h hcl; exact hcl
  | cons host rest ih =>
      intro st h hcl
      simp only [sendReportsAux]
      cases hb : buildReportDoc st host (summarize host) now elapsed with
      | error e => exact hcl
      | ok r =>
          refine ih { st with items := dictSet st.items host [] } h ?_
          by_cases he : h = host
          · subst he; simp [dictGet_dictSet_self]
          · simpa [dictGet_dictSet_ne _ _ _ _ he] using hcl

theorem sendReportsAux_posted_cleared (baseUrl : String) (summarize : String → Summary)
    (post : String → Option String) (now : String) (elapsed : Int) :
    ∀ (hosts : List String) (st : RunState) (h : String),
      h ∈ (sendReportsAux baseUrl summarize post now elapsed st hosts).posted.map Report.host →
      dictGet (sendReportsAux baseUrl summarize post now elapsed st hosts).state.items h
        = some [] := by
  intro hosts
  induction hosts with
  | nil => intro st h hmem; simp [sendReportsAux] at hmem
  | cons host rest ih =>
      intro st h hmem
      cases hb : buildReportDoc st host (summarize host) now elapsed with
      | error e => simp [sendReportsAux, hb] at hmem
      | ok r =>
          simp only [sendReportsAux, hb, List.map_cons, List.mem_cons] at hmem ⊢
          rcases hmem with heq | hmem
          · have hhost := (buildReportDoc_ok_inv _ _ _ _ _ _ hb).1
            refine sendReportsAux_items_mono baseUrl summarize post now elapsed rest _ h ?_
            rw [heq, hhost]
            simp [dictGet_dictSet_self]
          · exact ih { st with items := dictSet st.items host [] } h hmem

theorem sendReportsAux_posted_status (baseUrl : String) (summarize : String → Summary)
    (post : String → Option String) (now : String) (elapsed : Int) :
    ∀ (hosts : List String) (st : RunState) (r : Report),
      r ∈ (sendReportsAux baseUrl summarize post now elapsed st hosts).posted →
      r.status = { applied := (summarize r.host).changed,
                   failed := (summarize r.host).failures + (summarize r.host).unreachable,
                   skipped := (summarize r.host).skipped } := by
  intro hosts
  induction hosts with
  | nil => intro st r hmem; simp [sendReportsAux] at hmem
  | cons host rest ih =>
      intro st r hmem
      cases hb : buildReportDoc st host (summarize host) now elapsed with
      | error e => simp [sendReportsAux, hb] at hmem
      | ok rep =>
          simp only [sendReportsAux, hb, List.mem_cons] at hmem
          rcases hmem with heq | hmem
          · obtain ⟨hhost, hstatus, _⟩ := buildReportDoc_ok_inv _ _ _ _ _ _ hb
            subst heq
            rw [hstatus, hhost]
          · exact ih { st with items := dictSet st.items host [] } r hmem

theorem sendReportsAux_success (baseUrl : String) (summarize : String → Summary)
    (post : String → Option String) (now : String) (elapsed : Int) :
    ∀ (hosts : List String) (st : RunState),
      (∀ h ∈ hosts, exceptOk (buildLog (itemsOf st h)) = true) →
      (sendReportsAux baseUrl summarize post now elapsed st hosts).escaped = none
      ∧ (sendReportsAux baseUrl summarize post now elapsed st hosts).posted.map Report.host
          = hosts
      ∧ (sendReportsAux baseUrl summarize post now elapsed st hosts).warnings
          = hosts.filterMap (fun h =>
              (post h).map fun e => ({ url := baseUrl, host := h, err := e } : Warning))
      ∧ ∀ h ∈ hosts,
          dictGet (sendReportsAux baseUrl summarize post now elapsed st hosts).state.items h
            = some [] := by
  intro hosts
  induction hosts with
  | nil => intro st _; exact ⟨rfl, rfl, rfl, by intro h hmem; simp at hmem⟩
  | cons host rest ih =>
      intro st hser
      have hhead : exceptOk (buildLog (itemsOf st host)) = true :=
        hser _ (List.mem_cons_self _ _)
      cases hl : buildLog (itemsOf st host) with
      | error e => rw [hl] at hhead; simp [exceptOk] at hhead
      | ok logs =>
          have hb : buildReportDoc st host (summarize host) now elapsed
              = Except.ok
                  { host := host, reported_at := now, totalTime := elapsed,
                    status := { applied := (summarize host).changed,
                                failed := (summarize host).failures
                                  + (summarize host).unreachable,
                                skipped := (summarize host).skipped },
                    logs := logs, reporter := "ansible" } := by
            unfold buildReportDoc
            rw [hl]
          have hser' : ∀ h ∈ rest,
              exceptOk (buildLog (itemsOf { st with
                items := dictSet st.items host [] } h)) = true := by
            intro h hmem
            by_cases he : h = host
            · subst he
              simp [itemsOf, dictGet_dictSet_self, buildLog, exceptOk]
            · have : itemsOf { st with items := dictSet st.items host [] } h
                  = itemsOf st h := by
                simp [itemsOf, dictGet_dictSet_ne _ _ _ _ he]
              rw [this]
              exact hser _ (List.mem_cons_of_mem _ hmem)
          obtain ⟨ih1, ih2, ih3, ih4⟩ :=
            ih { st with items := dictSet st.items host [] } hser'
          simp only [sendReportsAux, hb]
          refine ⟨ih1, by simp [ih2], ?_, ?_⟩
          · cases hp : post host <;>
              simp [List.filterMap_cons, hp, ih3]
          · intro h hmem
            rcases List.mem_cons.mp hmem with he | hmem
            · subst he
              exact sendReportsAux_items_mono baseUrl summarize post now elapsed rest _ h
                (by simp [dictGet_dictSet_self])
            · exact ih4 h hmem

/-! ### `send_facts` loop lemma -/

theorem sendFactsAux_shape (baseUrl now : String) (post : String → Option String) :
    ∀ (fs : List (String × Obj)),
      (sendFactsAux baseUrl now post fs).posted
          = fs.map (fun p => (p.1, buildFactsDoc p.1 p.2 now))
      ∧ (sendFactsAux baseUrl now post fs).warnings
          = fs.filterMap (fun p =>
              (post p.1).map fun e => ({ url := baseUrl, host := p.1, err := e } : Warning)) := by
  intro fs
  induction fs with
  | nil => exact ⟨rfl, rfl⟩
  | cons p rest ih =>
      obtain ⟨host, hostFacts⟩ := p
      obtain ⟨ih1, ih2⟩ := ih
      constructor
      · simp [sendFactsAux, ih1]
      · cases hp : post host <;> simp [sendFactsAux, hp, ih2, List.filterMap_cons]

/-! ### Claim C1 — log level classification -/

/-- C1 counterexample: the claim predicts level `notice` for
`{failed: false, changed: true}`, but `build_log` tests key presence
(`'failed' in msg`), not truthiness, so the code yields `err`. -/
theorem C1_counterexample :
    classifyLevel [("failed", JsonValue.bool false), ("changed", JsonValue.bool true)] = "err"
    ∧ ("err" : String) ≠ "notice" := by
  exact ⟨rfl, by decide⟩

/-- C1 (amended): classification is a total deterministic function into
`err`/`notice`/`info`; it returns `err` exactly when the `failed` key is
present (regardless of its value), otherwise `notice` exactly when the
`changed` key is present with a truthy value, otherwise `info`; the
empty object yields `info`. -/
theorem C1_classify_characterization (msg : Obj) :
    (classifyLevel msg = "err" ↔ (dictGet msg "failed").isSome = true)
    ∧ (dictGet msg "failed" = none →
        (classifyLevel msg = "notice" ↔
          ∃ c, dictGet msg "changed" = some c ∧ truthy c = true))
    ∧ (classifyLevel msg = "err" ∨ classifyLevel msg = "notice" ∨ classifyLevel msg = "info")
    ∧ classifyLevel [] = "info" := by
  refine ⟨?_, ?_, ?_, rfl⟩
  · cases hf : dictGet msg "failed" with
    | some v => simp [classifyLevel, hf]
    | none =>
        cases hc : dictGet msg "changed" with
        | some c =>
            by_cases ht : truthy c
            · simp [classifyLevel, hf, hc, ht]
            · simp [classifyLevel, hf, hc, ht]
        | none => simp [classifyLevel, hf, hc]
  · intro hf
    cases hc : dictGet msg "changed" with
    | some c =>
        by_cases ht : truthy c
        · simp [classifyLevel, hf, hc, ht]
        · simp [classifyLevel, hf, hc, ht]
    | none => simp [classifyLevel, hf, hc]
  · cases hf : dictGet msg "failed" with
    | some v => left; simp [classifyLevel, hf]
    | none =>
        cases hc : dictGet msg "changed" with
        | some c =>
            by_cases ht : truthy c
            · right; left; simp [classifyLevel, hf, hc, ht]
            · right; right; simp [classifyLevel, hf, hc, ht]
        | none => right; right; simp [classifyLevel, hf, hc]

/-- C1 witness: a result with only a truthy `changed` key classifies as
`notice`, by the amended characterization. -/
theorem C1_witness : classifyLevel [("changed", JsonValue.bool true)] = "notice" :=
  ((C1_classify_characterization [("changed", JsonValue.bool true)]).2.1 rfl).mpr
    ⟨JsonValue.bool true, rfl, rfl⟩

/-! ### Claim C2 — per-host FIFO log order -/

/-- C2: for any sequence of `append_result` calls, the log built at
publish time for a host has exactly one entry per call naming that
host, in call order, with each entry's source equal to the call's task
name. -/
theorem C2_fifo_order (st0 : RunState) (events : List Event) (host : String)
    (hbase : itemsOf st0 host = [])
    (hser : ∀ e ∈ events, e.host = host → exceptOk (dumps (JsonValue.obj e.value)) = true) :
    ∃ entries, buildLog (itemsOf (ingest st0 events) host) = Except.ok entries
      ∧ entries.map LogEntry.source = (events.filter fun e => e.host == host).map Event.task
      ∧ entries.length = (events.filter fun e => e.host == host).length := by
  rw [itemsOf_ingest, hbase, List.nil_append]
  have hall : ∀ p ∈ (events.filter fun e => e.host == host).map
      (fun e => (e.task, e.value)), exceptOk (dumps (JsonValue.obj p.2)) = true := by
    intro p hp
    obtain ⟨e, hme, hpe⟩ := List.mem_map.mp hp
    obtain ⟨hmem, hh⟩ := List.mem_filter.mp hme
    subst hpe
    exact hser e hmem (by simpa using hh)
  obtain ⟨es, he, hs, _⟩ := buildLog_ok_of_serializable _ hall
  refine ⟨es, he, ?_, ?_⟩
  · rw [hs, List.map_map]
    rfl
  · have := congrArg List.length hs
    simpa using this

/-- Concrete event sequence for the C2 witness: two events for `h1`
interleaved with one for `h2`. -/
def c2Events : List Event :=
  [{ task := "t1", host := "h1", value := [] },
   { task := "t2", host := "h2", value := [("failed", JsonValue.bool true)] },
   { task := "t3", host := "h1", value := [("changed", JsonValue.bool true)] }]

/-- C2 witness: ingesting the concrete event sequence from the fresh
state yields, for `h1`, exactly the two `h1` entries in call order. -/
theorem C2_witness :
    ∃ entries, buildLog (itemsOf (ingest initState c2Events) "h1") = Except.ok entries
      ∧ entries.map LogEntry.source = (c2Events.filter fun e => e.host == "h1").map Event.task
      ∧ entries.length = (c2Events.filter fun e => e.host == "h1").length :=
  C2_fifo_order initState c2Events "h1" rfl (by decide)

/-! ### Claim C3 — shallow facts merge -/

/-- First ingested result of the C3 scenario: `{ansible_facts: {a: 1}}`. -/
def c3Result1 : Obj := [("ansible_facts", JsonValue.obj [("a", JsonValue.num 1)])]

/-- Second ingested result of the C3 scenario:
`{ansible_facts: {a: 2, b: 3}}`. -/
def c3Result2 : Obj :=
  [("ansible_facts", JsonValue.obj [("a", JsonValue.num 2), ("b", JsonValue.num 3)])]

/-- C3: facts accumulation is a shallow key-wise overwriting merge:
ingesting `{ansible_facts:{a:1}}` then `{ansible_facts:{a:2,b:3}}` for a
host with no prior facts leaves exactly `{a:2,b:3}`; a result without
the facts key leaves `facts` unchanged; and in general a present facts
object is merged into the host's facts by `dict.update`. -/
theorem C3_facts_merge (st : RunState) (host t1 t2 : String)
    (hbase : factsOf st host = []) :
    factsOf (appendResult (appendResult st t1 host c3Result1) t2 host c3Result2) host
      = [("a", JsonValue.num 2), ("b", JsonValue.num 3)]
    ∧ (∀ (st2 : RunState) (n h : String) (v : Obj),
        dictGet v "ansible_facts" = none → (appendResult st2 n h v).facts = st2.facts)
    ∧ (∀ (st2 : RunState) (n h : String) (v af : Obj),
        dictGet v "ansible_facts" = some (JsonValue.obj af) →
        factsOf (appendResult st2 n h v) h = dictUpdate (factsOf st2 h) af) := by
  refine ⟨?_, ?_, ?_⟩
  · have h1 : (appendResult st t1 host c3Result1).facts
        = dictSet st.facts host [("a", JsonValue.num 1)] := by
      rw [appendResult_facts_of_facts st t1 host c3Result1 [("a", JsonValue.num 1)] rfl, hbase]
      rfl
    have h2 : factsOf (appendResult st t1 host c3Result1) host = [("a", JsonValue.num 1)] := by
      unfold factsOf
      rw [h1, dictGet_dictSet_self]
      rfl
    unfold factsOf
    rw [appendResult_facts_of_facts (appendResult st t1 host c3Result1) t2 host c3Result2
          [("a", JsonValue.num 2), ("b", JsonValue.num 3)] rfl,
        h2, dictGet_dictSet_self]
    rfl
  · exact fun st2 n h v hv => appendResult_facts_of_no_facts st2 n h v hv
  · intro st2 n h v af hv
    show (dictGet (appendResult st2 n h v).facts h).getD [] = _
    rw [appendResult_facts_of_facts st2 n h v af hv, dictGet_dictSet_self]
    rfl

/-- C3 witness: the two-step merge scenario run from the fresh state. -/
theorem C3_witness :
    factsOf (appendResult (appendResult initState "t1" "h1" c3Result1) "t2" "h1" c3Result2) "h1"
      = [("a", JsonValue.num 2), ("b", JsonValue.num 3)] :=
  (C3_facts_merge initState "h1" "t1" "t2" rfl).1

/-! ### Claim C4 — status block and end-to-end scenario -/

/-- State of the C4 end-to-end scenario: one "ok" result with
`changed=true` ingested for host `h1`. -/
def c4St : RunState := appendResult initState "t" "h1" [("changed", JsonValue.bool true)]

/-- Stats of the C4 end-to-end scenario: summary
`{changed:1, failures:0, unreachable:0, skipped:0}` for every host. -/
def c4Stats : Stats :=
  { processed := ["h1"],
    summarize := fun _ => { changed := 1, failures := 0, unreachable := 0, skipped := 0 } }

/-- C4: every report POSTed by `send_reports` carries the status block
`applied = summary.changed`, `failed = summary.failures +
summary.unreachable`, `skipped = summary.skipped`; and the end-to-end
scenario (one `changed=true` result for `h1`, summary
`{changed:1, failures:0, unreachable:0, skipped:0}`) produces exactly
one report, with status `{applied:1, failed:0, skipped:0}` and exactly
one log entry, of level `notice`. -/
theorem C4_status_block :
    (∀ (st : RunState) (stats : Stats) (post : String → Option String)
        (now : String) (elapsed : Int) (r : Report),
        r ∈ (sendReports st stats post now elapsed).posted →
        r.status = { applied := (stats.summarize r.host).changed,
                     failed := (stats.summarize r.host).failures
                       + (stats.summarize r.host).unreachable,
                     skipped := (stats.summarize r.host).skipped })
    ∧ (sendReports c4St c4Stats (fun _ => none) "now" 0).posted.map
          (fun r => (r.status, r.logs.map LogEntry.level))
        = [({ applied := 1, failed := 0, skipped := 0 }, ["notice"])] := by
  constructor
  · intro st stats post now elapsed r hmem
    exact sendReportsAux_posted_status st.foreman_url stats.summarize post now elapsed
      stats.processed st r hmem
  · rfl

/-- The single report of the C4 scenario, as POSTed by `send_reports`. -/
def c4Report : Report :=
  { host := "h1", reported_at := "now", totalTime := 0,
    status := { applied := 1, failed := 0, skipped := 0 },
    logs := [{ source := "t",
               message := "\x7b\"changed\": true\x7d",
               level := "notice" }],
    reporter := "ansible" }

/-- C4 witness: the scenario's posted report satisfies the status-block
equation at its own summary. -/
theorem C4_witness : c4Report.status = { applied := 1, failed := 0, skipped := 0 } :=
  C4_status_block.1 c4St c4Stats (fun _ => none) "now" 0 c4Report
    (show c4Report ∈ (sendReports c4St c4Stats (fun _ => none) "now" 0).posted from
      List.mem_singleton.mpr rfl)

/-! ### Claim C5 — buffers cleared regardless of POST outcome -/

/-- C5: every host whose report was POSTed (whatever the POST outcome,
`post` is arbitrary and may report failure for any host) ends with an
empty buffered-items list after `send_reports`. -/
theorem C5_cleared_after_publish (st : RunState) (stats : Stats)
    (post : String → Option String) (now : String) (elapsed : Int) (host : String)
    (hmem : host ∈ (sendReports st stats post now elapsed).posted.map Report.host) :
    dictGet (sendReports st stats post now elapsed).state.items host = some [] :=
  sendReportsAux_posted_cleared st.foreman_url stats.summarize post now elapsed
    stats.processed st host hmem

/-- State for the C5 witness: one buffered result for `h1`. -/
def c5St : RunState := appendResult initState "t" "h1" []

/-- Stats for the C5 witness. -/
def c5Stats : Stats :=
  { processed := ["h1"],
    summarize := fun _ => { changed := 0, failures := 0, unreachable := 0, skipped := 0 } }

/-- C5 witness: `h1`'s buffer is cleared even though its POST failed
with a 500-style transport error. -/
theorem C5_witness :
    dictGet (sendReports c5St c5Stats (fun _ => some "500 Server Error") "now" 0).state.items "h1"
      = some [] :=
  C5_cleared_after_publish c5St c5Stats (fun _ => some "500 Server Error") "now" 0 "h1"
    (by decide)

/-! ### Claim C6 — transport failures are isolated per host -/

/-- C6: with serializable buffers, transport outcomes are arbitrary per
host and per endpoint, yet: every facts host is POSTed and each failed
facts POST yields one warning carrying that host and the base URL; no
exception escapes `send_reports`; every processed host gets exactly one
report POST; each failed report POST yields one warning carrying that
host and the base URL; and every processed host's buffer is cleared —
so one host's failure never prevents the remaining hosts from being
processed. -/
theorem C6_failure_isolation (st : RunState) (stats : Stats)
    (postFacts postReports : String → Option String) (now : String) (elapsed : Int)
    (hser : ∀ h ∈ stats.processed, exceptOk (buildLog (itemsOf st h)) = true) :
    (sendFacts st now postFacts).2.posted
        = st.facts.map (fun p => (p.1, buildFactsDoc p.1 p.2 now))
    ∧ (sendFacts st now postFacts).2.warnings
        = st.facts.filterMap (fun p =>
            (postFacts p.1).map fun e =>
              ({ url := st.foreman_url, host := p.1, err := e } : Warning))
    ∧ (sendReports st stats postReports now elapsed).escaped = none
    ∧ (sendReports st stats postReports now elapsed).posted.map Report.host = stats.processed
    ∧ (sendReports st stats postReports now elapsed).warnings
        = stats.processed.filterMap (fun h =>
            (postReports h).map fun e =>
              ({ url := st.foreman_url, host := h, err := e } : Warning))
    ∧ ∀ h ∈ stats.processed,
        dictGet (sendReports st stats postReports now elapsed).state.items h = some [] := by
  obtain ⟨hf1, hf2⟩ := sendFactsAux_shape st.foreman_url now postFacts st.facts
  obtain ⟨hr1, hr2, hr3, hr4⟩ :=
    sendReportsAux_success st.foreman_url stats.summarize postReports now elapsed
      stats.processed st hser
  exact ⟨hf1, hf2, hr1, hr2, hr3, hr4⟩

/-- State for the C6 witness: buffered items and facts for two hosts,
with a configured base URL. -/
def c6St : RunState :=
  { foreman_url := "http://foreman.example.com",
    items := [("h1", [("t1", [])]), ("h2", [("t2", [("changed", JsonValue.bool true)])])],
    facts := [("h1", [("os", JsonValue.str "linux")])],
    disabled := false }

/-- Stats for the C6 witness. -/
def c6Stats : Stats :=
  { processed := ["h1", "h2"],
    summarize := fun _ => { changed := 0, failures := 0, unreachable := 0, skipped := 0 } }

/-- Transport outcome for the C6 witness: `h1`'s POST fails with a
connection error, `h2`'s succeeds. -/
def c6Post : String → Option String :=
  fun h => if h = "h1" then some "connection refused" else none

/-- C6 witness: `h1`'s report POST fails and `h2`'s succeeds; no
exception escapes, both hosts are processed, the single warning names
`h1` and the base URL, and `h2`'s buffer is cleared. -/
theorem C6_witness :
    (sendReports c6St c6Stats c6Post "now" 3).escaped = none
    ∧ (sendReports c6St c6Stats c6Post "now" 3).posted.map Report.host = ["h1", "h2"]
    ∧ (sendReports c6St c6Stats c6Post "now" 3).warnings
        = [{ url := "http://foreman.example.com", host := "h1", err := "connection refused" }]
    ∧ dictGet (sendReports c6St c6Stats c6Post "now" 3).state.items "h2" = some [] := by
  obtain ⟨-, -, h3, h4, h5, h6⟩ :=
    C6_failure_isolation c6St c6Stats c6Post c6Post "now" 3 (by decide)
  refine ⟨h3, ?_, ?_, h6 "h2" (by decide)⟩
  · rw [h4]; rfl
  · rw [h5]; rfl

/-! ### Claim C7 — non-serializable buffered values -/

/-- State for C7: `h1` has a buffered result holding a non-serializable
Python object (for example a `set`), `h2` has an ordinary result. -/
def c7St : RunState :=
  { foreman_url := "http://f",
    items := [("h1", [("t1", [("x", JsonValue.pyObject "set")])]),
              ("h2", [("t2", [])])],
    facts := [],
    disabled := false }

/-- Stats for C7: both hosts processed, `h1` first. -/
def c7Stats : Stats :=
  { processed := ["h1", "h2"],
    summarize := fun _ => { changed := 0, failures := 0, unreachable := 0, skipped := 0 } }

/-- C7 counterexample: the claim predicts the serialization failure is
handled like a transport error (warn and continue), but `json.dumps`
raises outside the `try` block: the exception escapes `send_reports`,
no warning is emitted, nothing is POSTed, and `h2` is never processed —
its buffer keeps its item. -/
theorem C7_counterexample :
    (sendReports c7St c7Stats (fun _ => none) "now" 0).escaped.isSome = true
    ∧ (sendReports c7St c7Stats (fun _ => none) "now" 0).warnings = []
    ∧ (sendReports c7St c7Stats (fun _ => none) "now" 0).posted = []
    ∧ dictGet (sendReports c7St c7Stats (fun _ => none) "now" 0).state.items "h2"
        = some [("t2", [])] :=
  ⟨rfl, rfl, rfl, rfl⟩

/-- C7 (amended): ingestion itself never fails — `append_result` stores
any value verbatim — and a non-serializable buffered value surfaces at
publish time; but it is not treated like a transport error: as soon as
the publish loop reaches such a host, the `json.dumps` error (raised
while building the report, before the `try` around the POST) escapes
`send_reports`, emitting no warning, POSTing nothing, aborting the
remaining hosts and leaving every buffer (including that host's) with
its items still in place. -/
theorem C7_serialization_error_escapes (st : RunState) (stats : Stats)
    (post : String → Option String) (now : String) (elapsed : Int)
    (host : String) (rest : List String) (e : String)
    (hp : stats.processed = host :: rest)
    (he : buildLog (itemsOf st host) = Except.error e) :
    (∀ (st2 : RunState) (n h : String) (v : Obj),
        itemsOf (appendResult st2 n h v) h = itemsOf st2 h ++ [(n, v)])
    ∧ sendReports st stats post now elapsed
        = { state := st, posted := [], warnings := [], escaped := some e } := by
  refine ⟨fun st2 n h v => itemsOf_appendResult_self st2 n h v, ?_⟩
  unfold sendReports
  rw [hp]
  have hb : buildReportDoc st host (stats.summarize host) now elapsed = Except.error e := by
    unfold buildReportDoc
    rw [he]
  simp [sendReportsAux, hb]

/-- C7 witness: on the concrete two-host state the `TypeError` raised
for `h1`'s buffered `set` escapes with nothing POSTed or warned. -/
theorem C7_witness :
    sendReports c7St c7Stats (fun _ => none) "now" 0
      = { state := c7St, posted := [], warnings := [],
          escaped := some "Object of type set is not JSON serializable" } :=
  (C7_serialization_error_escapes c7St c7Stats (fun _ => none) "now" 0 "h1" ["h2"]
    "Object of type set is not JSON serializable" rfl rfl).2

/-! ### Claim C8 — which hosts get a publish attempt -/

/-- State for the C8 counterexample: `h1` has a buffered item. -/
def c8St : RunState :=
  { foreman_url := "http://f",
    items := [("h1", [("t", [])])],
    facts := [],
    disabled := false }

/-- Stats for the C8 counterexample: `h1` is absent from
`stats.processed`. -/
def c8Stats : Stats :=
  { processed := [],
    summarize := fun _ => { changed := 0, failures := 0, unreachable := 0, skipped := 0 } }

/-- C8 counterexample: the claim predicts a publish attempt for every
host present in `items`, but the loop iterates `stats.processed`:
with `h1` buffered yet not in `processed`, nothing is built or POSTed
and `h1`'s buffer is not cleared. -/
theorem C8_counterexample :
    c8St.items.map Prod.fst = ["h1"]
    ∧ (itemsOf c8St "h1").length = 1
    ∧ (sendReports c8St c8Stats (fun _ => none) "now" 0).posted = []
    ∧ (sendReports c8St c8Stats (fun _ => none) "now" 0).state.items = c8St.items :=
  ⟨rfl, rfl, rfl, rfl⟩

/-- C8 (amended): `send_reports` builds and POSTs exactly one report per
host present in the summary's `processed` set, in iteration order —
regardless of which hosts have buffered items (hosts only in `items`
get no attempt; hosts only in `processed` get one with an empty log). -/
theorem C8_one_attempt_per_processed_host (st : RunState) (stats : Stats)
    (post : String → Option String) (now : String) (elapsed : Int)
    (hser : ∀ h ∈ stats.processed, exceptOk (buildLog (itemsOf st h)) = true) :
    (sendReports st stats post now elapsed).posted.map Report.host = stats.processed :=
  (sendReportsAux_success st.foreman_url stats.summarize post now elapsed
    stats.processed st hser).2.1

/-- Stats for the C8 witness: `h1` processed. -/
def c8Stats2 : Stats :=
  { processed := ["h1"],
    summarize := fun _ => { changed := 0, failures := 0, unreachable := 0, skipped := 0 } }

/-- C8 witness: with `h1` in `processed`, exactly one report for `h1`
is POSTed. -/
theorem C8_witness :
    (sendReports c8St c8Stats2 (fun _ => none) "now" 0).posted.map Report.host = ["h1"] :=
  C8_one_attempt_per_processed_host c8St c8Stats2 (fun _ => none) "now" 0 (by decide)

/-! ### Claim C9 — disablement is sticky and publish becomes a no-op -/

theorem setOptions_sticky (st : RunState) (inp : SetOptionsInput)
    (hd : st.disabled = true) : (setOptions st inp).disabled = true := by
  simp only [setOptions, disablePlugin]
  split_ifs <;> simp_all

theorem setOptions_disables_on_missing_cert (st : RunState) (inp : SetOptionsInput)
    (hurl : inp.url.startsWith "https://" = true) (hcert : inp.certExists = false) :
    (setOptions st inp).disabled = true := by
  simp only [setOptions, disablePlugin]
  split_ifs <;> simp_all

/-- C9: once `disabled` is set — as `set_options` does when, for an
`https://` URL, the client certificate file is missing — it stays set
through every operation (`set_options`, `append_result`,
`send_reports`), and the end-of-run dispatch for a disabled plugin
performs zero network requests and leaves the state untouched. -/
theorem C9_disablement_sticky (st : RunState) (inp : SetOptionsInput) (stats : Stats)
    (postFacts postReports : String → Option String) (now : String) (elapsed : Int)
    (name host : String) (value : Obj)
    (hd : st.disabled = true) :
    (setOptions st inp).disabled = true
    ∧ (appendResult st name host value).disabled = true
    ∧ (sendReports st stats postReports now elapsed).state.disabled = true
    ∧ dispatchEndOfRun st stats postFacts postReports now elapsed
        = (st, { factsPosted := [], reportsPosted := [], factsWarnings := [],
                 reportWarnings := [], escaped := none })
    ∧ (∀ (st2 : RunState) (inp2 : SetOptionsInput),
        inp2.url.startsWith "https://" = true → inp2.certExists = false →
        (setOptions st2 inp2).disabled = true) := by
  refine ⟨setOptions_sticky st inp hd, ?_, ?_, ?_, ?_⟩
  · rw [appendResult_disabled]; exact hd
  · unfold sendReports
    rw [(sendReportsAux_state_frame st.foreman_url stats.summarize postReports now elapsed
      stats.processed st).2.1]
    exact hd
  · simp [dispatchEndOfRun, hd]
  · exact fun st2 inp2 hurl hcert => setOptions_disables_on_missing_cert st2 inp2 hurl hcert

/-- A disabled run state for the C9 witness. -/
def c9St : RunState :=
  { foreman_url := "https://f", items := [("h1", [("t", [])])],
    facts := [("h1", [("os", JsonValue.str "linux")])], disabled := true }

/-- Stats for the C9 witness. -/
def c9Stats : Stats :=
  { processed := ["h1"],
    summarize := fun _ => { changed := 0, failures := 0, unreachable := 0, skipped := 0 } }

/-- A configuration input for the C9 witness. -/
def c9Inp : SetOptionsInput :=
  { disable_callback := false, url := "https://f", hasRequests := true,
    requestsVersion := [2, 28, 1], certExists := true, keyExists := true }

/-- C9 witness: on a concrete disabled state the end-of-run dispatch
makes zero POSTs and changes nothing. -/
theorem C9_witness :
    dispatchEndOfRun c9St c9Stats (fun _ => none) (fun _ => none) "now" 0
      = (c9St, { factsPosted := [], reportsPosted := [], factsWarnings := [],
                 reportWarnings := [], escaped := none }) :=
  (C9_disablement_sticky c9St c9Inp c9Stats (fun _ => none) (fun _ => none) "now" 0
    "t" "h1" [] rfl).2.2.2.1

/-! ### Claim C10 — publishing never mutates the accumulated facts -/

/-- C10: neither `send_facts` nor `send_reports` (nor their composition
in `v2_playbook_on_stats`) changes `facts`; only processed hosts' item
buffers change; and a second `send_facts` right after the publish would
POST exactly the same facts documents again. -/
theorem C10_facts_frame (st : RunState) (stats : Stats)
    (postFacts postReports : String → Option String) (now : String) (elapsed : Int) :
    (sendFacts st now postFacts).1.facts = st.facts
    ∧ (sendReports st stats postReports now elapsed).state.facts = st.facts
    ∧ (v2_playbook_on_stats st stats postFacts postReports now elapsed).1.facts = st.facts
    ∧ (∀ h, h ∉ stats.processed →
        dictGet (v2_playbook_on_stats st stats postFacts postReports now elapsed).1.items h
          = dictGet st.items h)
    ∧ (sendFacts (sendReports st stats postReports now elapsed).state now postFacts).2.posted
        = (sendFacts st now postFacts).2.posted := by
  have hframe := sendReportsAux_state_frame st.foreman_url stats.summarize postReports
    now elapsed stats.processed st
  refine ⟨rfl, hframe.1, hframe.1, ?_, ?_⟩
  · intro h hmem
    exact sendReportsAux_items_notmem st.foreman_url stats.summarize postReports
      now elapsed stats.processed st h hmem
  · show (sendFactsAux (sendReports st stats postReports now elapsed).state.foreman_url now
        postFacts (sendReports st stats postReports now elapsed).state.facts).posted = _
    unfold sendReports
    rw [hframe.1, hframe.2.2]
    rfl

/-- State for the C10 witness. -/
def c10St : RunState :=
  { foreman_url := "http://f",
    items := [("h1", [("t1", [])]), ("h2", [("t2", [])])],
    facts := [("h1", [("os", JsonValue.str "linux")])],
    disabled := false }

/-- Stats for the C10 witness: only `h1` is processed. -/
def c10Stats : Stats :=
  { processed := ["h1"],
    summarize := fun _ => { changed := 0, failures := 0, unreachable := 0, skipped := 0 } }

/-- C10 witness: after the end-of-run publish on the concrete state the
facts are untouched and the unprocessed host `h2` keeps its buffer. -/
theorem C10_witness :
    (sendReports c10St c10Stats (fun _ => none) "now" 0).state.facts = c10St.facts
    ∧ dictGet (v2_playbook_on_stats c10St c10Stats (fun _ => none) (fun _ => none)
        "now" 0).1.items "h2" = dictGet c10St.items "h2" := by
  obtain ⟨-, h2, -, h4, -⟩ :=
    C10_facts_frame c10St c10Stats (fun _ => none) (fun _ => none) "now" 0
  exact ⟨h2, h4 "h2" (by decide)⟩

end Foreman
